import Mathlib

/-!
Verification of the trading leverage-adjustment service (`trading_api.py`)
against its natural-language specification.

Modelling conventions:
* Python floats are modelled as `Option ℝ` (`PFloat`); `none` models a
  non-finite float (NaN).  Comparisons involving NaN are `false`, mirroring
  IEEE/CPython semantics; arithmetic on NaN yields NaN.
* A pandas `Series` of returns is a list of `(timestamp, value)` pairs with
  the timestamp as join key.
* The SQLite table `pair_metrics` is a list of rows keyed by the primary key
  `pair`; `INSERT OR REPLACE` deletes the conflicting row and appends the new
  one, which is modelled by `filter` + append.
* `datetime` values are records of calendar fields; the sqlite adapter
  serialises them with `isoformat(' ')` and `get_metrics` re-parses with
  `datetime.fromisoformat`, both modelled on `List Char`.
-/

namespace TradingApi

/-- Python float: `some x` is the finite value `x`, `none` models NaN. -/
abbrev PFloat := Option ℝ

/-- Python `a > b` on floats: `False` whenever an operand is NaN. -/
noncomputable def pgt (a b : PFloat) : Bool :=
  match a, b with
  | some x, some y => decide (y < x)
  | _, _ => false

/-- Python `a < b` on floats: `False` whenever an operand is NaN. -/
noncomputable def plt (a b : PFloat) : Bool :=
  match a, b with
  | some x, some y => decide (x < y)
  | _, _ => false

/-- Float addition; NaN propagates. -/
def padd (a b : PFloat) : PFloat :=
  match a, b with
  | some x, some y => some (x + y)
  | _, _ => none

/-- Float subtraction; NaN propagates. -/
def psub (a b : PFloat) : PFloat :=
  match a, b with
  | some x, some y => some (x - y)
  | _, _ => none

/-- Float multiplication; NaN propagates. -/
def pmul (a b : PFloat) : PFloat :=
  match a, b with
  | some x, some y => some (x * y)
  | _, _ => none

/-- Float division; NaN propagates, and a zero divisor yields a non-finite
result (modelled as `none`).  Every division performed by the program is
guarded by a strict positivity test on the divisor. -/
noncomputable def pdiv (a b : PFloat) : PFloat :=
  match a, b with
  | some x, some y => if y = 0 then none else some (x / y)
  | _, _ => none

/-- Float absolute value; NaN propagates. -/
def pabs (a : PFloat) : PFloat := a.map (fun x => |x|)

/-- CPython `min(a, b)`: returns `b` exactly when `b < a`. -/
noncomputable def pmin (a b : PFloat) : PFloat := if plt b a then b else a

/-- CPython `max(a, b)`: returns `b` exactly when `b > a`. -/
noncomputable def pmax (a b : PFloat) : PFloat := if pgt b a then b else a

/-- `TradingAnalyzer.calculate_leverage_adjustment` (trading_api.py 207-223):
ratio of pair to ETH volatility (default `1.0` unless the ETH volatility is
`> 0`), ratio of average movements (same guard), `risk_ratio` their mean,
`1 / risk_ratio` when that is `> 0` (else `1.0`), clamped by
`max(0.1, min(2.0, _))`. -/
noncomputable def calculate_leverage_adjustment
    (pair_volatility eth_volatility pair_avg_movement eth_avg_movement : PFloat) :
    PFloat :=
  let volatility_ratio :=
    if pgt eth_volatility (some 0) then pdiv pair_volatility eth_volatility else some 1
  let movement_ratio :=
    if pgt eth_avg_movement (some 0) then pdiv pair_avg_movement eth_avg_movement else some 1
  let risk_ratio := pdiv (padd volatility_ratio movement_ratio) (some 2)
  let leverage_adjustment :=
    if pgt risk_ratio (some 0) then pdiv (some 1) risk_ratio else some 1
  pmax (some (1/10)) (pmin (some 2) leverage_adjustment)

/-- Python `min(levels, key := ...)`: scans left to right keeping the current
best element unless a strictly smaller key appears, so the earliest element
wins ties (NaN keys compare `False` and never displace the current best). -/
noncomputable def pyMinBy (key : ℤ → PFloat) : ℤ → List ℤ → ℤ
  | best, [] => best
  | best, x :: xs => pyMinBy key (if plt (key x) (key best) then x else best) xs

/-- The fixed leverage ladder of `recommend_leverage`. -/
def leverage_levels : List ℤ := [1, 2, 3, 5, 10, 20, 25, 50]

/-- `TradingAnalyzer.recommend_leverage` (trading_api.py 232-249): scale the
base leverage 10 by the adjustment, apply the volatility penalty (`* 0.6` if
the ratio is `> 1.5`, else `* 0.8` if `> 1.2`), snap to the nearest ladder
value (first match wins ties), clamp to `[1, 25]`. -/
noncomputable def recommend_leverage (leverage_adjustment volatility_ratio : PFloat) : ℤ :=
  let base_leverage : PFloat := some 10
  let adjusted_leverage := pmul base_leverage leverage_adjustment
  let adjusted_leverage :=
    if pgt volatility_ratio (some (3/2)) then pmul adjusted_leverage (some (3/5))
    else if pgt volatility_ratio (some (6/5)) then pmul adjusted_leverage (some (4/5))
    else adjusted_leverage
  let recommended :=
    pyMinBy (fun x => pabs (psub (some (x : ℝ)) adjusted_leverage)) 1 [2, 3, 5, 10, 20, 25, 50]
  max 1 (min 25 recommended)

lemma pyMinBy_mem (key : ℤ → PFloat) (b : ℤ) (xs : List ℤ) :
    pyMinBy key b xs ∈ b :: xs := by
  induction xs generalizing b with
  | nil => simp [pyMinBy]
  | cons x xs ih =>
    rw [pyMinBy]
    rcases List.mem_cons.mp (ih (if plt (key x) (key b) then x else b)) with h | h
    · rw [h]
      split
      · exact List.mem_cons.mpr (Or.inr (List.mem_cons.mpr (Or.inl rfl)))
      · exact List.mem_cons.mpr (Or.inl rfl)
    · exact List.mem_cons.mpr (Or.inr (List.mem_cons.mpr (Or.inr h)))

lemma pclamp_bounds (x : ℝ) :
    ∃ r : ℝ, pmax (some (1/10)) (pmin (some 2) (some x)) = some r ∧
      (1/10 : ℝ) ≤ r ∧ r ≤ 2 := by
  by_cases h1 : x < 2
  · by_cases h2 : (1/10 : ℝ) < x
    · refine ⟨x, ?_, le_of_lt h2, le_of_lt h1⟩
      simp [pmax, pmin, plt, pgt, h1, h2]
      intro h
      linarith
    · refine ⟨1/10, ?_, le_refl _, by norm_num⟩
      simp [pmax, pmin, plt, pgt, h1, h2]
      intro h
      linarith
  · refine ⟨2, ?_, by norm_num, le_refl _⟩
    have h3 : (1/10 : ℝ) < 2 := by norm_num
    simp [pmax, pmin, plt, pgt, h1, h3]
    intro h
    linarith

lemma clamp_bounds (risk : PFloat) :
    ∃ r : ℝ, pmax (some (1/10)) (pmin (some 2)
      (if pgt risk (some 0) then pdiv (some 1) risk else some 1)) = some r ∧
      (1/10 : ℝ) ≤ r ∧ r ≤ 2 := by
  rcases risk with _ | v
  · simpa [pgt] using pclamp_bounds 1
  · by_cases hv : (0 : ℝ) < v
    · have hg : pgt (some v) (some 0) = true := by simp [pgt, hv]
      have hd : pdiv (some 1) (some v) = some (1/v) := by
        simp [pdiv, ne_of_gt hv]
      simpa [hg, hd] using pclamp_bounds (1/v)
    · have hg : pgt (some v) (some 0) = false := by simp [pgt, hv]
      simpa [hg] using pclamp_bounds 1

lemma clamp_ladder {r : ℤ} (h : r ∈ ([1, 2, 3, 5, 10, 20, 25, 50] : List ℤ)) :
    max 1 (min 25 r) ∈ ([1, 2, 3, 5, 10, 20, 25] : List ℤ) := by
  fin_cases h <;> decide

/-- C1: for every input (pair volatility, ETH volatility, pair movement, ETH
movement) — NaN included — `calculate_leverage_adjustment` returns a finite
value lying in the interval `[0.1, 2.0]`. -/
theorem c1_leverage_adjustment_in_range
    (pv ev pm em : PFloat) :
    ∃ r : ℝ, calculate_leverage_adjustment pv ev pm em = some r ∧
      (1/10 : ℝ) ≤ r ∧ r ≤ 2 := by
  unfold calculate_leverage_adjustment
  exact clamp_bounds _

/-- C2: for every adjustment and volatility ratio — NaN included —
`recommend_leverage` returns an integer in `{1, 2, 3, 5, 10, 20, 25}`:
the snapped ladder value (`50` included) clamped to `[1, 25]`. -/
theorem c2_recommended_leverage_in_ladder
    (adj vr : PFloat) :
    recommend_leverage adj vr ∈ ([1, 2, 3, 5, 10, 20, 25] : List ℤ) := by
  unfold recommend_leverage
  exact clamp_ladder (pyMinBy_mem _ 1 [2, 3, 5, 10, 20, 25, 50])

/-- A pandas series of daily returns: `(timestamp, value)` rows, the
timestamp being the index used for alignment. -/
abbrev Series := List (ℕ × ℝ)

/-- Mean of a list of values.  Callers only use it on nonempty lists (the
empty case, NaN in pandas, is guarded separately where it matters). -/
noncomputable def listMean (xs : List ℝ) : ℝ := xs.sum / xs.length

/-- pandas `Series.std()` with its default `ddof = 1`: NaN (`none`) when the
series has fewer than two values, else the square root of the unbiased
sample variance. -/
noncomputable def seriesStd (xs : List ℝ) : PFloat :=
  if xs.length < 2 then none
  else some (Real.sqrt ((xs.map (fun x => (x - listMean xs)^2)).sum /
    ((xs.length : ℝ) - 1)))

/-- `TradingAnalyzer.calculate_volatility` (trading_api.py 198-200):
`returns.std() * np.sqrt(365)`. -/
noncomputable def calculate_volatility (returns : Series) : PFloat :=
  pmul (seriesStd (returns.map Prod.snd)) (some (Real.sqrt 365))

/-- `pd.concat([returns1, returns2], axis=1).dropna()`: the pairs of values
whose timestamp occurs in both series (value order follows `returns1`;
Pearson correlation does not depend on row order). -/
def alignSeries (returns1 returns2 : Series) : List (ℝ × ℝ) :=
  returns1.filterMap (fun p => (returns2.lookup p.1).map (fun y => (p.2, y)))

/-- pandas `Series.corr` on the two aligned columns: Pearson correlation,
sample covariance divided by the product of the sample standard deviations;
NaN (`none`) when either standard deviation is zero or undefined. -/
noncomputable def pearsonCorr (ps : List (ℝ × ℝ)) : PFloat :=
  let xs := ps.map Prod.fst
  let ys := ps.map Prod.snd
  let cov := (ps.map (fun p => (p.1 - listMean xs) * (p.2 - listMean ys))).sum /
    ((ps.length : ℝ) - 1)
  pdiv (some cov) (pmul (seriesStd xs) (seriesStd ys))

/-- `TradingAnalyzer.calculate_correlation` (trading_api.py 225-230): align
the two series on their timestamps, return `0.0` when fewer than 10 aligned
points exist, else their Pearson correlation. -/
noncomputable def calculate_correlation (returns1 returns2 : Series) : PFloat :=
  let aligned_data := alignSeries returns1 returns2
  if aligned_data.length < 10 then some 0
  else pearsonCorr aligned_data

/-- C3: for every pair of return series, `calculate_correlation` returns
exactly `0.0` when the time-aligned intersection has fewer than 10 points,
and otherwise the Pearson correlation over that aligned intersection. -/
theorem c3_correlation_low_sample_policy (r1 r2 : Series) :
    ((alignSeries r1 r2).length < 10 → calculate_correlation r1 r2 = some 0) ∧
    (10 ≤ (alignSeries r1 r2).length →
      calculate_correlation r1 r2 = pearsonCorr (alignSeries r1 r2)) := by
  constructor
  · intro h
    simp [calculate_correlation, h]
  · intro h
    have h' : ¬ (alignSeries r1 r2).length < 10 := not_lt.mpr h
    simp [calculate_correlation, h']

/-- Witness for C3 at the concrete input of two empty series. -/
theorem c3_correlation_witness :
    (alignSeries ([] : Series) ([] : Series)).length < 10 ∧
      calculate_correlation ([] : Series) ([] : Series) = some 0 := by
  have h : (alignSeries ([] : Series) ([] : Series)).length < 10 := by
    simp [alignSeries]
  exact ⟨h, (c3_correlation_low_sample_policy [] []).1 h⟩

/-- The annualised volatility formula as the spec words it: standard
deviation of the return values (the sample deviation pandas computes)
scaled by `sqrt 365`. -/
noncomputable def specAnnualizedVol (returns : Series) : ℝ :=
  Real.sqrt (((returns.map Prod.snd).map
    (fun x => (x - listMean (returns.map Prod.snd))^2)).sum /
    ((returns.length : ℝ) - 1)) * Real.sqrt 365

/-- C4 counterexample: on the empty series `calculate_volatility` is
`returns.std() * sqrt(365)` = NaN (`none`), not `0` as claimed; pandas
`std()` of an empty series is NaN. -/
theorem c4_volatility_counterexample :
    calculate_volatility ([] : Series) = none ∧
      calculate_volatility ([] : Series) ≠ some 0 := by
  constructor <;> simp [calculate_volatility, seriesStd, pmul]

/-- C4 (amended): `calculate_volatility` returns the sample standard
deviation (`ddof = 1`) of the returns scaled by `sqrt 365` when the series
has at least two points, and NaN (`none`) — not `0` — when it has fewer
than two points, in particular when it is empty. -/
theorem c4_volatility_amended (returns : Series) :
    (returns.length < 2 → calculate_volatility returns = none) ∧
    (2 ≤ returns.length →
      calculate_volatility returns = some (specAnnualizedVol returns)) := by
  constructor
  · intro h
    simp [calculate_volatility, seriesStd, pmul, h]
  · intro h
    have h' : ¬ returns.length < 2 := not_lt.mpr h
    simp [calculate_volatility, seriesStd, h', pmul, specAnnualizedVol]

/-- Witness for C4 (amended) at a concrete two-point series. -/
theorem c4_volatility_amended_witness :
    2 ≤ ([((0:ℕ), (0:ℝ)), (1, 0)] : Series).length ∧
      calculate_volatility ([((0:ℕ), (0:ℝ)), (1, 0)] : Series) =
        some (specAnnualizedVol ([((0:ℕ), (0:ℝ)), (1, 0)] : Series)) :=
  ⟨by simp, (c4_volatility_amended _).2 (by simp)⟩

/-- Python `datetime.datetime` calendar fields. -/
structure DateTime where
  year : ℕ
  month : ℕ
  day : ℕ
  hour : ℕ
  minute : ℕ
  second : ℕ
  microsecond : ℕ
deriving DecidableEq

/-- The field ranges Python's `datetime` constructor guarantees (day bounded
by 31 rather than by the exact month length). -/
def DateTime.Valid (d : DateTime) : Prop :=
  1 ≤ d.year ∧ d.year ≤ 9999 ∧ 1 ≤ d.month ∧ d.month ≤ 12 ∧
    1 ≤ d.day ∧ d.day ≤ 31 ∧ d.hour ≤ 23 ∧ d.minute ≤ 59 ∧
    d.second ≤ 59 ∧ d.microsecond ≤ 999999

instance (d : DateTime) : Decidable d.Valid := by
  unfold DateTime.Valid
  infer_instance

/-- The character for decimal digit `d` (used with `d < 10`). -/
def digitChar (d : ℕ) : Char := Char.ofNat (48 + d)

/-- Zero-padded fixed-width decimal rendering, most significant digit
first, as `%04d`-style formatting produces. -/
def padNat : ℕ → ℕ → List Char
  | 0, _ => []
  | k + 1, n => padNat k (n / 10) ++ [digitChar (n % 10)]

/-- Numeric value of a block of decimal digit characters. -/
def readNat (cs : List Char) : ℕ :=
  cs.foldl (fun a c => 10 * a + (c.toNat - 48)) 0

/-- `datetime.isoformat(sep)` (and `str(datetime)`, where `sep` is a
space): zero-padded calendar fields, with the microsecond field printed as
6 digits only when it is nonzero. -/
def isoChars (sep : Char) (d : DateTime) : List Char :=
  padNat 4 d.year ++ ['-'] ++ padNat 2 d.month ++ ['-'] ++ padNat 2 d.day ++ [sep] ++
    padNat 2 d.hour ++ [':'] ++ padNat 2 d.minute ++ [':'] ++ padNat 2 d.second ++
    (if d.microsecond = 0 then [] else ['.'] ++ padNat 6 d.microsecond)

/-- The string the sqlite3 default `datetime` adapter stores on `INSERT`:
`isoformat(' ')`. -/
def pyDatetimeStr (d : DateTime) : String := String.mk (isoChars ' ' d)

/-- The string `datetime.isoformat()` (default separator) returned by the
query endpoint. -/
def isoformat (d : DateTime) : String := String.mk (isoChars 'T' d)

/-- `datetime.fromisoformat` on the shapes relevant here:
`YYYY-MM-DD*HH:MM:SS[.ffffff]` with an arbitrary single separator
character, digit checks, and the `datetime` constructor's range checks. -/
def parseDatetime (cs : List Char) : Option DateTime :=
  match cs with
  | y1 :: y2 :: y3 :: y4 :: c1 :: m1 :: m2 :: c2 :: d1 :: d2 :: _sep :: h1 :: h2 :: c3 ::
      n1 :: n2 :: c4 :: s1 :: s2 :: rest =>
    if c1 = '-' ∧ c2 = '-' ∧ c3 = ':' ∧ c4 = ':' ∧
        [y1, y2, y3, y4, m1, m2, d1, d2, h1, h2, n1, n2, s1, s2].all Char.isDigit = true then
      let mk : ℕ → Option DateTime := fun us =>
        let d : DateTime :=
          ⟨readNat [y1, y2, y3, y4], readNat [m1, m2], readNat [d1, d2],
            readNat [h1, h2], readNat [n1, n2], readNat [s1, s2], us⟩
        if d.Valid then some d else none
      match rest with
      | [] => mk 0
      | dot :: u1 :: u2 :: u3 :: u4 :: u5 :: u6 :: [] =>
        if dot = '.' ∧ [u1, u2, u3, u4, u5, u6].all Char.isDigit = true then
          mk (readNat [u1, u2, u3, u4, u5, u6])
        else none
      | _ => none
    else none
  | _ => none

lemma isDigit_digitChar {m : ℕ} (h : m < 10) : (digitChar m).isDigit = true := by
  interval_cases m <;> decide

lemma toNat_digitChar {m : ℕ} (h : m < 10) : (digitChar m).toNat - 48 = m := by
  interval_cases m <;> decide

lemma padNat_all_digits (k n : ℕ) : (padNat k n).all Char.isDigit = true := by
  induction k generalizing n with
  | zero => simp [padNat]
  | succ k ih =>
    rw [padNat, List.all_append]
    simp [ih, isDigit_digitChar (Nat.mod_lt n (by norm_num))]

lemma readNat_padNat_aux (k : ℕ) :
    ∀ n a : ℕ, n < 10 ^ k →
      (padNat k n).foldl (fun acc c => 10 * acc + (c.toNat - 48)) a = a * 10 ^ k + n := by
  induction k with
  | zero =>
    intro n a h
    simp [padNat]
    omega
  | succ k ih =>
    intro n a h
    rw [padNat, List.foldl_append]
    have hn : n / 10 < 10 ^ k := by
      rw [Nat.div_lt_iff_lt_mul (by norm_num)]
      calc n < 10 ^ (k + 1) := h
        _ = 10 ^ k * 10 := by ring
    rw [ih _ _ hn]
    simp only [List.foldl_cons, List.foldl_nil]
    rw [toNat_digitChar (Nat.mod_lt n (by norm_num))]
    have hmod : 10 * (n / 10) + n % 10 = n := Nat.div_add_mod n 10
    calc 10 * (a * 10 ^ k + n / 10) + n % 10
        = a * (10 ^ k * 10) + (10 * (n / 10) + n % 10) := by ring
      _ = a * 10 ^ (k + 1) + n := by rw [hmod, pow_succ]

lemma readNat_padNat {k n : ℕ} (h : n < 10 ^ k) : readNat (padNat k n) = n := by
  have := readNat_padNat_aux k n 0 h
  simpa [readNat] using this

lemma padNat_two (n : ℕ) :
    padNat 2 n = [digitChar (n / 10 % 10), digitChar (n % 10)] := by
  simp [padNat, Nat.div_div_eq_div_mul]

lemma padNat_four (n : ℕ) :
    padNat 4 n = [digitChar (n / 1000 % 10), digitChar (n / 100 % 10),
      digitChar (n / 10 % 10), digitChar (n % 10)] := by
  simp [padNat, Nat.div_div_eq_div_mul]

lemma padNat_six (n : ℕ) :
    padNat 6 n = [digitChar (n / 100000 % 10), digitChar (n / 10000 % 10),
      digitChar (n / 1000 % 10), digitChar (n / 100 % 10),
      digitChar (n / 10 % 10), digitChar (n % 10)] := by
  simp [padNat, Nat.div_div_eq_div_mul]

lemma padNat_shape_two (n : ℕ) (h : n < 100) :
    ∃ a b, padNat 2 n = [a, b] ∧ [a, b].all Char.isDigit = true ∧
      readNat [a, b] = n := by
  refine ⟨_, _, padNat_two n, ?_, ?_⟩
  · rw [← padNat_two]
    exact padNat_all_digits 2 n
  · rw [← padNat_two]
    exact readNat_padNat (by simpa using h)

lemma padNat_shape_four (n : ℕ) (h : n < 10000) :
    ∃ a b c e, padNat 4 n = [a, b, c, e] ∧ [a, b, c, e].all Char.isDigit = true ∧
      readNat [a, b, c, e] = n := by
  refine ⟨_, _, _, _, padNat_four n, ?_, ?_⟩
  · rw [← padNat_four]
    exact padNat_all_digits 4 n
  · rw [← padNat_four]
    exact readNat_padNat (by simpa using h)

lemma padNat_shape_six (n : ℕ) (h : n < 1000000) :
    ∃ a b c e f g, padNat 6 n = [a, b, c, e, f, g] ∧
      [a, b, c, e, f, g].all Char.isDigit = true ∧
      readNat [a, b, c, e, f, g] = n := by
  refine ⟨_, _, _, _, _, _, padNat_six n, ?_, ?_⟩
  · rw [← padNat_six]
    exact padNat_all_digits 6 n
  · rw [← padNat_six]
    exact readNat_padNat (by simpa using h)

/-- Round trip of the datetime serialisation: parsing the ISO rendering of
a valid datetime (any single-character separator) recovers it exactly. -/
theorem parseDatetime_isoChars (sep : Char) (d : DateTime) (hd : d.Valid) :
    parseDatetime (isoChars sep d) = some d := by
  obtain ⟨y, mo, dy, hh, mi, ss, us⟩ := d
  obtain ⟨v1, v2, v3, v4, v5, v6, v7, v8, v9, v10⟩ := hd
  dsimp only at v1 v2 v3 v4 v5 v6 v7 v8 v9 v10
  obtain ⟨a1, a2, a3, a4, hY, hYd, hYr⟩ := padNat_shape_four y (by omega)
  obtain ⟨b1, b2, hMo, hMod, hMor⟩ := padNat_shape_two mo (by omega)
  obtain ⟨c1, c2, hDy, hDyd, hDyr⟩ := padNat_shape_two dy (by omega)
  obtain ⟨e1, e2, hH, hHd, hHr⟩ := padNat_shape_two hh (by omega)
  obtain ⟨f1, f2, hMi, hMid, hMir⟩ := padNat_shape_two mi (by omega)
  obtain ⟨g1, g2, hS, hSd, hSr⟩ := padNat_shape_two ss (by omega)
  simp only [List.all_cons, List.all_nil, Bool.and_eq_true, Bool.and_true,
    and_true] at hYd hMod hDyd hHd hMid hSd
  obtain ⟨hd1, hd2, hd3, hd4⟩ := hYd
  obtain ⟨hd5, hd6⟩ := hMod
  obtain ⟨hd7, hd8⟩ := hDyd
  obtain ⟨hd9, hd10⟩ := hHd
  obtain ⟨hd11, hd12⟩ := hMid
  obtain ⟨hd13, hd14⟩ := hSd
  rw [isoChars]
  dsimp only
  rw [hY, hMo, hDy, hH, hMi, hS]
  by_cases hus : us = 0
  · subst hus
    have hv : DateTime.Valid ⟨y, mo, dy, hh, mi, ss, 0⟩ :=
      ⟨v1, v2, v3, v4, v5, v6, v7, v8, v9, v10⟩
    simp only [if_pos rfl, List.cons_append, List.nil_append, List.append_nil]
    simp only [parseDatetime]
    simp only [List.all_cons, List.all_nil, hd1, hd2, hd3, hd4, hd5, hd6, hd7, hd8,
      hd9, hd10, hd11, hd12, hd13, hd14, Bool.and_true, Bool.and_self, and_true,
      true_and, and_self, if_true]
    rw [hYr, hMor, hDyr, hHr, hMir, hSr]
    rw [if_pos hv]
  · obtain ⟨u1, u2, u3, u4, u5, u6, hU, hUd, hUr⟩ := padNat_shape_six us (by omega)
    have hv : DateTime.Valid ⟨y, mo, dy, hh, mi, ss, us⟩ :=
      ⟨v1, v2, v3, v4, v5, v6, v7, v8, v9, v10⟩
    simp only [List.all_cons, List.all_nil, Bool.and_eq_true, Bool.and_true,
      and_true] at hUd
    obtain ⟨hd15, hd16, hd17, hd18, hd19, hd20⟩ := hUd
    simp only [if_neg hus, hU, List.cons_append, List.nil_append, List.append_nil]
    simp only [parseDatetime]
    simp only [List.all_cons, List.all_nil, hd1, hd2, hd3, hd4, hd5, hd6, hd7, hd8,
      hd9, hd10, hd11, hd12, hd13, hd14, hd15, hd16, hd17, hd18, hd19, hd20,
      Bool.and_true, Bool.and_self, and_true, true_and, and_self, if_true]
    rw [hYr, hMor, hDyr, hHr, hMir, hSr, hUr]
    rw [if_pos hv]

/-- The `PairMetrics` dataclass (trading_api.py 85-94). -/
structure PairMetrics where
  pair : String
  leverage_adjustment : PFloat
  volatility_ratio : PFloat
  correlation_with_eth : PFloat
  avg_daily_movement : PFloat
  recommended_leverage : ℤ
  last_updated : DateTime

/-- A persisted row of the `pair_metrics` table; the sqlite3 default adapter
has serialised `last_updated` into its ISO text form. -/
structure DbRow where
  pair : String
  leverage_adjustment : PFloat
  volatility_ratio : PFloat
  correlation_with_eth : PFloat
  avg_daily_movement : PFloat
  recommended_leverage : ℤ
  last_updated : String

/-- The row that `save_metrics` binds for a metrics record. -/
def toRow (m : PairMetrics) : DbRow :=
  ⟨m.pair, m.leverage_adjustment, m.volatility_ratio, m.correlation_with_eth,
    m.avg_daily_movement, m.recommended_leverage, pyDatetimeStr m.last_updated⟩

/-- A state of the `pair_metrics` table: its rows, at most one per primary
key `pair`. -/
abbrev Store := List DbRow

/-- `DatabaseManager.save_metrics` (trading_api.py 120-137): one atomic
`INSERT OR REPLACE` statement keyed by the primary key `pair` — the
conflicting row, if any, is deleted and the fresh row inserted. -/
def save_metrics (metrics : PairMetrics) (s : Store) : Store :=
  s.filter (fun r => r.pair ≠ metrics.pair) ++ [toRow metrics]

/-- Conversion of one fetched row back into a `PairMetrics`
(trading_api.py 150-158); `none` when `datetime.fromisoformat` would
raise on the stored text. -/
def rowToMetrics (r : DbRow) : Option PairMetrics :=
  (parseDatetime r.last_updated.toList).map (fun d =>
    ⟨r.pair, r.leverage_adjustment, r.volatility_ratio, r.correlation_with_eth,
      r.avg_daily_movement, r.recommended_leverage, d⟩)

/-- The result dictionary of `get_metrics`, built row by row; the whole
call raises (`none`) if any scanned row fails to parse. -/
def rowsToDict : List DbRow → Option (List (String × PairMetrics))
  | [] => some []
  | r :: rs =>
    match rowToMetrics r, rowsToDict rs with
    | some m, some t => some ((r.pair, m) :: t)
    | _, _ => none

/-- `DatabaseManager.get_metrics` (trading_api.py 139-161): scan the rows
whose `pair` is in the requested list (`WHERE pair IN (...)`) and key each
converted record by its pair. -/
def get_metrics (pairs : List String) (s : Store) :
    Option (List (String × PairMetrics)) :=
  rowsToDict (s.filter (fun r => pairs.contains r.pair))

lemma save_filter_self (m : PairMetrics) (s : Store) :
    (save_metrics m s).filter (fun r => r.pair = m.pair) = [toRow m] := by
  unfold save_metrics
  rw [List.filter_append, List.filter_filter]
  have h : (s.filter fun r =>
      decide (r.pair = m.pair) && decide (¬r.pair = m.pair)) = [] := by
    rw [List.filter_eq_nil_iff]
    intro r _
    by_cases hr : r.pair = m.pair <;> simp [hr]
  rw [h]
  simp [toRow]

/-- C9: the store upsert is idempotent — `save_metrics m` applied twice
equals it applied once — and it is keyed by the record's symbol: after the
upsert the store holds exactly one row for that symbol, the fresh one, and
the rows of all other symbols are untouched. -/
theorem c9_upsert_idempotent (m : PairMetrics) (s : Store) :
    save_metrics m (save_metrics m s) = save_metrics m s ∧
    (save_metrics m s).filter (fun r => r.pair = m.pair) = [toRow m] ∧
    (save_metrics m s).filter (fun r => r.pair ≠ m.pair) =
      s.filter (fun r => r.pair ≠ m.pair) := by
  refine ⟨?_, save_filter_self m s, ?_⟩
  · unfold save_metrics
    rw [List.filter_append, List.filter_filter]
    simp [toRow]
  · unfold save_metrics
    rw [List.filter_append, List.filter_filter]
    simp [toRow]

/-- C10: write-then-read round trip — after `save_metrics m`, a
`get_metrics [m.pair]` returns the mapping whose single entry is `m.pair`
bound to a record equal to `m` field for field, the timestamp having been
recovered by parsing its stored ISO form. -/
theorem c10_save_get_roundtrip (m : PairMetrics) (s : Store)
    (hv : m.last_updated.Valid) :
    get_metrics [m.pair] (save_metrics m s) = some [(m.pair, m)] := by
  have hparse : rowToMetrics (toRow m) = some m := by
    obtain ⟨p, la, vrr, ce, adm, rl, lu⟩ := m
    unfold rowToMetrics toRow pyDatetimeStr
    dsimp only
    rw [show (String.mk (isoChars ' ' lu)).toList = isoChars ' ' lu from rfl]
    rw [parseDatetime_isoChars _ _ hv]
    rfl
  unfold get_metrics save_metrics
  rw [List.filter_append]
  have h1 : ((s.filter (fun r => r.pair ≠ m.pair)).filter
      (fun r => [m.pair].contains r.pair)) = [] := by
    rw [List.filter_filter, List.filter_eq_nil_iff]
    intro r _
    by_cases hr : r.pair = m.pair <;> simp [hr]
  have h2 : ([toRow m].filter (fun r => [m.pair].contains r.pair)) = [toRow m] := by
    simp [toRow]
  rw [h1, h2, List.nil_append]
  have h3 : rowsToDict [toRow m] = some [((toRow m).pair, m)] := by
    simp [rowsToDict, hparse]
  rw [h3]
  rfl

/-- Witness for C10 at a concrete record and the empty store. -/
theorem c10_save_get_roundtrip_witness :
    (⟨2024, 5, 17, 9, 30, 59, 123456⟩ : DateTime).Valid ∧
      get_metrics ["BTC/USDT:USDT"]
        (save_metrics
          ⟨"BTC/USDT:USDT", some 1, some 1, some 0, some (1/20), 10,
            ⟨2024, 5, 17, 9, 30, 59, 123456⟩⟩ []) =
        some [("BTC/USDT:USDT",
          ⟨"BTC/USDT:USDT", some 1, some 1, some 0, some (1/20), 10,
            ⟨2024, 5, 17, 9, 30, 59, 123456⟩⟩)] :=
  ⟨by decide,
    c10_save_get_roundtrip
      ⟨"BTC/USDT:USDT", some 1, some 1, some 0, some (1/20), 10,
        ⟨2024, 5, 17, 9, 30, 59, 123456⟩⟩ [] (by decide)⟩

/-- Python `round(x, 4)`: round to the nearest multiple of `1/10000`, ties
to the even multiple. -/
noncomputable def roundHalfEven (x : ℝ) : ℤ :=
  let f := ⌊x⌋
  if x - f < 1/2 then f
  else if 1/2 < x - f then f + 1
  else if f % 2 = 0 then f else f + 1

/-- `round(_, 4)` lifted to floats; `round(nan, 4)` is NaN. -/
noncomputable def round4 (a : PFloat) : PFloat :=
  a.map (fun x => (roundHalfEven (x * 10000) : ℝ) / 10000)

/-- One entry of the `/leverage-adjustment` response body
(trading_api.py 420-436). -/
inductive LookupResult where
  /-- The stored record: numeric fields rounded to 4 decimal places, the
  integer leverage as is, the timestamp rendered with `isoformat()`. -/
  | found (leverage_adjustment volatility_ratio correlation_with_eth
      avg_daily_movement : PFloat) (recommended_leverage : ℤ)
      (last_updated : String)
  /-- The fallback body for a symbol missing from the store: an error tag
  plus the documented defaults. -/
  | notFound (error : String) (leverage_adjustment : PFloat)
      (recommended_leverage : ℤ)

/-- The per-pair branch of the response loop (trading_api.py 420-436). -/
noncomputable def respRecord (metrics : List (String × PairMetrics))
    (p : String) : LookupResult :=
  match metrics.lookup p with
  | some m =>
    .found (round4 m.leverage_adjustment) (round4 m.volatility_ratio)
      (round4 m.correlation_with_eth) (round4 m.avg_daily_movement)
      m.recommended_leverage (isoformat m.last_updated)
  | none => .notFound "Pair not found in database" (some 1) 5

/-- Python dict assignment `d[k] = v` on an insertion-ordered dictionary:
an existing key keeps its position, a new key is appended. -/
def dictInsert {α : Type} (l : List (String × α)) (k : String) (v : α) :
    List (String × α) :=
  match l with
  | [] => [(k, v)]
  | (k', v') :: t => if k' = k then (k, v) :: t else (k', v') :: dictInsert t k v

/-- An HTTP outcome of the `/leverage-adjustment` endpoint. -/
inductive ApiResponse where
  /-- 400: the request supplied no pairs. -/
  | badRequest (error : String)
  /-- 200 with the per-pair mapping. -/
  | ok (body : List (String × LookupResult))
  /-- 500: an exception escaped (only possible here if a stored timestamp
  fails to parse). -/
  | serverError

/-- The `/leverage-adjustment` endpoint `get_leverage_adjustment`
(trading_api.py 404-442): `400` on an empty pair list, otherwise fetch the
stored metrics for the requested pairs and answer one record per requested
pair in request order — the rounded stored record when present, the
documented fallback when absent. -/
noncomputable def get_leverage_adjustment (pairs : List String) (s : Store) :
    ApiResponse :=
  if pairs.isEmpty then .badRequest "No pairs provided"
  else
    match get_metrics pairs s with
    | none => .serverError
    | some metrics =>
      .ok (pairs.foldl (fun response p => dictInsert response p (respRecord metrics p)) [])

/-- The requested symbols with later duplicates dropped: the key sequence a
Python dict built over them ends up with. -/
def firstKeys (seen : List String) : List String → List String
  | [] => []
  | p :: ps => if p ∈ seen then firstKeys seen ps else p :: firstKeys (seen ++ [p]) ps

/-- `firstKeys` starting from nothing seen. -/
def firstDedup (pairs : List String) : List String := firstKeys [] pairs

lemma dictInsert_lookup_self {α : Type} (l : List (String × α)) (k : String) (v : α) :
    (dictInsert l k v).lookup k = some v := by
  induction l with
  | nil => simp [dictInsert]
  | cons e t ih =>
    obtain ⟨k', v'⟩ := e
    rw [dictInsert]
    by_cases h : k' = k
    · subst h
      rw [if_pos rfl]
      exact List.lookup_cons_self
    · have hb : (k == k') = false := beq_eq_false_iff_ne.mpr (fun hh => h hh.symm)
      rw [if_neg h, List.lookup_cons, hb]
      exact ih

lemma dictInsert_lookup_ne {α : Type} (l : List (String × α)) (k : String) (v : α)
    (p : String) (h : p ≠ k) :
    (dictInsert l k v).lookup p = l.lookup p := by
  induction l with
  | nil =>
    have hb : (p == k) = false := beq_eq_false_iff_ne.mpr h
    simp [dictInsert, List.lookup_cons, hb]
  | cons e t ih =>
    obtain ⟨k', v'⟩ := e
    rw [dictInsert]
    by_cases hk : k' = k
    · subst hk
      rw [if_pos rfl]
      have hb : (p == k') = false := beq_eq_false_iff_ne.mpr h
      rw [List.lookup_cons, List.lookup_cons, hb]
    · rw [if_neg hk, List.lookup_cons, List.lookup_cons]
      cases hpk : (p == k') <;> simp [ih]

lemma dictInsert_keys {α : Type} (l : List (String × α)) (k : String) (v : α) :
    (dictInsert l k v).map Prod.fst =
      if k ∈ l.map Prod.fst then l.map Prod.fst else l.map Prod.fst ++ [k] := by
  induction l with
  | nil => simp [dictInsert]
  | cons e t ih =>
    obtain ⟨k', v'⟩ := e
    rw [dictInsert]
    by_cases h : k' = k
    · simp [h]
    · by_cases ht : k ∈ t.map Prod.fst <;>
        simp [h, ht, ih, Ne.symm h]

lemma foldl_dictInsert_lookup {α : Type} (f : String → α) (ps : List String)
    (acc : List (String × α)) (p : String) :
    (ps.foldl (fun a q => dictInsert a q (f q)) acc).lookup p =
      if p ∈ ps then some (f p) else acc.lookup p := by
  induction ps generalizing acc with
  | nil => simp
  | cons q qs ih =>
    rw [List.foldl_cons, ih]
    by_cases hp : p ∈ qs
    · simp [hp, List.mem_cons]
    · by_cases hpq : p = q
      · subst hpq
        simp [hp, dictInsert_lookup_self]
      · simp [hp, hpq, dictInsert_lookup_ne _ _ _ _ hpq]

lemma foldl_dictInsert_keys {α : Type} (f : String → α) (ps : List String)
    (acc : List (String × α)) :
    (ps.foldl (fun a q => dictInsert a q (f q)) acc).map Prod.fst =
      acc.map Prod.fst ++ firstKeys (acc.map Prod.fst) ps := by
  induction ps generalizing acc with
  | nil => simp [firstKeys]
  | cons q qs ih =>
    rw [List.foldl_cons, ih, dictInsert_keys, firstKeys]
    by_cases hq : q ∈ acc.map Prod.fst
    · simp [hq]
    · simp only [hq, if_neg, if_false, ite_false]
      rw [List.append_assoc]
      simp

lemma rowsToDict_isSome (l : List DbRow)
    (h : ∀ r ∈ l, (rowToMetrics r).isSome = true) :
    ∃ ms, rowsToDict l = some ms := by
  induction l with
  | nil => exact ⟨[], rfl⟩
  | cons r rs ih =>
    obtain ⟨m, hm⟩ := Option.isSome_iff_exists.mp (h r (List.mem_cons_self r rs))
    obtain ⟨ms, hms⟩ := ih (fun x hx => h x (List.mem_cons_of_mem r hx))
    exact ⟨(r.pair, m) :: ms, by simp [rowsToDict, hm, hms]⟩

/-- C5: for every nonempty requested list and every store whose rows are
readable, the endpoint answers 200 with one record per requested symbol in
request order (later duplicates collapsed by the dict), never an absence: a
symbol present in the fetched metrics yields the stored record with its
numeric fields rounded to 4 decimal places, an absent symbol yields the
fallback `notFound` record with `leverage_adjustment = 1.0` and
`recommended_leverage = 5` — still inside the 200 response. -/
theorem c5_lookup_always_answers (s : Store) (pairs : List String)
    (hne : pairs ≠ []) (hok : ∀ r ∈ s, (rowToMetrics r).isSome = true) :
    ∃ ms body, get_metrics pairs s = some ms ∧
      get_leverage_adjustment pairs s = .ok body ∧
      body.map Prod.fst = firstDedup pairs ∧
      ∀ p ∈ pairs,
        body.lookup p = some (respRecord ms p) ∧
        (ms.lookup p = none →
          respRecord ms p = .notFound "Pair not found in database" (some 1) 5) ∧
        (∀ m, ms.lookup p = some m →
          respRecord ms p = .found (round4 m.leverage_adjustment)
            (round4 m.volatility_ratio) (round4 m.correlation_with_eth)
            (round4 m.avg_daily_movement) m.recommended_leverage
            (isoformat m.last_updated)) := by
  obtain ⟨ms, hms⟩ :=
    rowsToDict_isSome (s.filter (fun r => pairs.contains r.pair))
      (fun r hr => hok r (List.mem_filter.mp hr).1)
  have hms' : get_metrics pairs s = some ms := hms
  have hemp : pairs.isEmpty = false := by
    cases pairs with
    | nil => exact absurd rfl hne
    | cons a l => rfl
  refine ⟨ms, pairs.foldl (fun response p => dictInsert response p (respRecord ms p)) [],
    hms', ?_, ?_, ?_⟩
  · unfold get_leverage_adjustment
    rw [hemp, hms']
    rfl
  · rw [foldl_dictInsert_keys]
    simp [firstDedup]
  · intro p hp
    refine ⟨?_, ?_, ?_⟩
    · rw [foldl_dictInsert_lookup]
      simp [hp]
    · intro h
      simp [respRecord, h]
    · intro m h
      simp [respRecord, h]

/-- Witness for C5: a one-symbol request against the empty store. -/
theorem c5_lookup_witness :
    (["ADA/USDT:USDT"] ≠ ([] : List String)) ∧
      (∃ ms body, get_metrics ["ADA/USDT:USDT"] ([] : Store) = some ms ∧
        get_leverage_adjustment ["ADA/USDT:USDT"] ([] : Store) = .ok body ∧
        body.map Prod.fst = firstDedup ["ADA/USDT:USDT"] ∧
        ∀ p ∈ ["ADA/USDT:USDT"],
          body.lookup p = some (respRecord ms p) ∧
          (ms.lookup p = none →
            respRecord ms p = .notFound "Pair not found in database" (some 1) 5) ∧
          (∀ m, ms.lookup p = some m →
            respRecord ms p = .found (round4 m.leverage_adjustment)
              (round4 m.volatility_ratio) (round4 m.correlation_with_eth)
              (round4 m.avg_daily_movement) m.recommended_leverage
              (isoformat m.last_updated))) :=
  ⟨by simp,
    c5_lookup_always_answers [] ["ADA/USDT:USDT"] (by simp) (by simp)⟩

/-- One OHLCV bar of the fetched price history. -/
structure Bar where
  timestamp : ℕ
  openPrice : ℝ
  high : ℝ
  low : ℝ
  close : ℝ
  volume : ℝ

/-- The market-data environment of one refresh run: the bars the exchange
returns per symbol — the empty list models both "no data" and a fetch
error, which `get_ohlcv_data` (179-192) maps to an empty frame — and the
wall clock used for `datetime.now()`. -/
structure Env where
  fetch : String → List Bar
  now : DateTime

/-- `calculate_daily_returns` (trading_api.py 194-196):
`close.pct_change().dropna()` — fractional close-to-close changes, indexed
by the second bar of each consecutive pair. -/
noncomputable def calculate_daily_returns (bars : List Bar) : Series :=
  (bars.zip bars.tail).map
    (fun p => (p.2.timestamp, (p.2.close - p.1.close) / p.1.close))

/-- `calculate_avg_daily_movement` (trading_api.py 202-205): mean of
`(high - low) / close` over the bars. -/
noncomputable def calculate_avg_daily_movement (bars : List Bar) : ℝ :=
  listMean (bars.map (fun b => (b.high - b.low) / b.close))

/-- The `eth_data` benchmark reference dict (trading_api.py 299-310). -/
structure EthData where
  volatility : PFloat
  avg_movement : PFloat
  returns : Series

/-- The hard-coded degraded-mode benchmark reference (trading_api.py
299-303): volatility `0.8`, average movement `0.05`, and the dummy
`pd.Series([0])` whose integer index never joins a real timestamp index. -/
noncomputable def defaultEthData : EthData := ⟨some (4/5), some (1/20), [(0, 0)]⟩

/-- The benchmark step of `analyze_all_pairs` (trading_api.py 294-310):
fetch the ETH bars; on an empty frame substitute the defaults, otherwise
compute the reference statistics. -/
noncomputable def ethDataOf (env : Env) : EthData :=
  let eth_df := env.fetch "ETH/USDT:USDT"
  if eth_df.isEmpty then defaultEthData
  else
    ⟨calculate_volatility (calculate_daily_returns eth_df),
      some (calculate_avg_daily_movement eth_df),
      calculate_daily_returns eth_df⟩

/-- The successful body of `analyze_pair` (trading_api.py 262-284). -/
noncomputable def pairMetricsOf (env : Env) (eth_data : EthData) (p : String) :
    PairMetrics :=
  let pair_df := env.fetch p
  let pair_returns := calculate_daily_returns pair_df
  let pair_volatility := calculate_volatility pair_returns
  let pair_avg_movement : PFloat := some (calculate_avg_daily_movement pair_df)
  let volatility_ratio :=
    if pgt eth_data.volatility (some 0) then pdiv pair_volatility eth_data.volatility
    else some 1
  let leverage_adjustment := calculate_leverage_adjustment pair_volatility
    eth_data.volatility pair_avg_movement eth_data.avg_movement
  let correlation := calculate_correlation pair_returns eth_data.returns
  let recommended_leverage := recommend_leverage leverage_adjustment volatility_ratio
  ⟨p, leverage_adjustment, volatility_ratio, correlation, pair_avg_movement,
    recommended_leverage, env.now⟩

/-- `analyze_pair` (trading_api.py 251-288): `None` when the pair's frame
is empty (the pair is skipped, the batch continues), else the computed
metrics stamped with the current time. -/
noncomputable def analyze_pair (env : Env) (eth_data : EthData) (p : String) :
    Option PairMetrics :=
  if (env.fetch p).isEmpty then none else some (pairMetricsOf env eth_data p)

/-- `analyze_all_pairs` (trading_api.py 290-324): compute the benchmark
reference once, then fill the results dict with every pair that could be
analysed, leaving out the skipped ones. -/
noncomputable def analyze_all_pairs (env : Env) (pairs : List String) :
    List (String × PairMetrics) :=
  let eth_data := ethDataOf env
  pairs.foldl (fun results p =>
    match analyze_pair env eth_data p with
    | some metrics => dictInsert results p metrics
    | none => results) []

/-- `update_metrics` (trading_api.py 471-490): analyse the requested pairs
and save every computed record into the store. -/
noncomputable def update_metrics (env : Env) (pairs : List String) (s : Store) :
    Store :=
  (analyze_all_pairs env pairs).foldl (fun st pm => save_metrics pm.2 st) s

/-- The `/update-metrics` endpoint `manual_update` (trading_api.py
456-468): run the refresh, then answer
`{"status": "Update completed", "pairs_updated": len(pairs)}` — the length
of the requested list. -/
noncomputable def manual_update (env : Env) (pairs : List String) (s : Store) :
    (String × ℕ) × Store :=
  (("Update completed", pairs.length), update_metrics env pairs s)

lemma analyze_foldl_eq (env : Env) (ed : EthData) (pairs : List String)
    (acc : List (String × PairMetrics)) :
    pairs.foldl (fun results p =>
      match analyze_pair env ed p with
      | some metrics => dictInsert results p metrics
      | none => results) acc =
    (pairs.filter (fun p => !(env.fetch p).isEmpty)).foldl
      (fun results p => dictInsert results p (pairMetricsOf env ed p)) acc := by
  induction pairs generalizing acc with
  | nil => rfl
  | cons q qs ih =>
    rw [List.foldl_cons, List.filter_cons]
    by_cases hq : (env.fetch q).isEmpty
    · simp only [analyze_pair, hq, if_true, Bool.not_true, ite_false, Bool.false_eq_true]
      exact ih acc
    · have hq' : (env.fetch q).isEmpty = false := by simpa using hq
      simp only [analyze_pair, hq', Bool.false_eq_true, if_false, Bool.not_false, ite_true]
      rw [List.foldl_cons]
      exact ih _

/-- `analyze_all_pairs` in terms of the pairs that have price data. -/
lemma analyze_all_pairs_eq (env : Env) (pairs : List String) :
    analyze_all_pairs env pairs =
      (pairs.filter (fun p => !(env.fetch p).isEmpty)).foldl
        (fun results p => dictInsert results p (pairMetricsOf env (ethDataOf env) p)) [] := by
  unfold analyze_all_pairs
  exact analyze_foldl_eq env (ethDataOf env) pairs []

lemma results_lookup_skipped (env : Env) (pairs : List String) (p : String)
    (hdata : (env.fetch p).isEmpty = true) :
    (analyze_all_pairs env pairs).lookup p = none := by
  rw [analyze_all_pairs_eq, foldl_dictInsert_lookup]
  have hp : p ∉ pairs.filter (fun p => !(env.fetch p).isEmpty) := by
    intro hmem
    have := (List.mem_filter.mp hmem).2
    rw [hdata] at this
    simp at this
  simp [hp]

lemma results_lookup_present (env : Env) (pairs : List String) (p : String)
    (hp : p ∈ pairs) (hdata : (env.fetch p).isEmpty = false) :
    (analyze_all_pairs env pairs).lookup p =
      some (pairMetricsOf env (ethDataOf env) p) := by
  rw [analyze_all_pairs_eq, foldl_dictInsert_lookup]
  have hmem : p ∈ pairs.filter (fun p => !(env.fetch p).isEmpty) := by
    rw [List.mem_filter]
    exact ⟨hp, by simp [hdata]⟩
  simp [hmem]

lemma firstKeys_subset {x : String} :
    ∀ (ps seen : List String), x ∈ firstKeys seen ps → x ∈ ps := by
  intro ps
  induction ps with
  | nil => intro seen h; simp [firstKeys] at h
  | cons q qs ih =>
    intro seen h
    rw [firstKeys] at h
    by_cases hq : q ∈ seen
    · rw [if_pos hq] at h
      exact List.mem_cons_of_mem q (ih _ h)
    · rw [if_neg hq] at h
      rcases List.mem_cons.mp h with h | h
      · exact h ▸ List.mem_cons_self q qs
      · exact List.mem_cons_of_mem q (ih _ h)

lemma firstKeys_nodup : ∀ (ps seen : List String),
    (firstKeys seen ps).Nodup ∧ ∀ x ∈ firstKeys seen ps, x ∉ seen := by
  intro ps
  induction ps with
  | nil => intro seen; simp [firstKeys]
  | cons q qs ih =>
    intro seen
    rw [firstKeys]
    by_cases hq : q ∈ seen
    · rw [if_pos hq]
      exact ih seen
    · rw [if_neg hq]
      obtain ⟨hnd, hout⟩ := ih (seen ++ [q])
      refine ⟨List.nodup_cons.mpr ⟨?_, hnd⟩, ?_⟩
      · intro hmem
        exact (hout q hmem) (by simp)
      · intro x hx
        rcases List.mem_cons.mp hx with h | h
        · exact h ▸ hq
        · intro hxs
          exact (hout x h) (by simp [hxs])

lemma mem_dictInsert {α : Type} (l : List (String × α)) (k : String) (v : α)
    (e : String × α) (h : e ∈ dictInsert l k v) : e ∈ l ∨ e = (k, v) := by
  induction l with
  | nil =>
    rw [dictInsert] at h
    simp at h
    exact Or.inr h
  | cons e' t ih =>
    obtain ⟨k', v'⟩ := e'
    rw [dictInsert] at h
    by_cases hk : k' = k
    · rw [if_pos hk] at h
      rcases List.mem_cons.mp h with h | h
      · exact Or.inr h
      · exact Or.inl (List.mem_cons_of_mem _ h)
    · rw [if_neg hk] at h
      rcases List.mem_cons.mp h with h | h
      · exact Or.inl (h ▸ List.mem_cons_self _ _)
      · rcases ih h with h | h
        · exact Or.inl (List.mem_cons_of_mem _ h)
        · exact Or.inr h

lemma foldl_dictInsert_prop {α : Type} (P : String → α → Prop) (f : String → α)
    (hf : ∀ p, P p (f p)) :
    ∀ (ps : List String) (acc : List (String × α)),
      (∀ e ∈ acc, P e.1 e.2) →
      ∀ e ∈ ps.foldl (fun a q => dictInsert a q (f q)) acc, P e.1 e.2 := by
  intro ps
  induction ps with
  | nil => intro acc hacc e he; exact hacc e he
  | cons q qs ih =>
    intro acc hacc e he
    rw [List.foldl_cons] at he
    refine ih _ ?_ e he
    intro x hx
    rcases mem_dictInsert _ _ _ _ hx with h | h
    · exact hacc x h
    · rw [h]
      exact hf q

lemma save_preserves_other (m : PairMetrics) (st : Store) (p : String)
    (h : m.pair ≠ p) :
    (save_metrics m st).filter (fun r => r.pair = p) =
      st.filter (fun r => r.pair = p) := by
  unfold save_metrics
  rw [List.filter_append, List.filter_filter]
  have h1 : ([toRow m].filter (fun r => r.pair = p)) = [] := by
    simp [toRow, h]
  rw [h1, List.append_nil]
  apply List.filter_congr
  intro r _
  by_cases hr : r.pair = p
  · have h2 : ¬ p = m.pair := fun hh => h hh.symm
    simp [hr, h2]
  · simp [hr]

lemma saves_preserve (rs : List (String × PairMetrics)) (st : Store) (p : String)
    (h : ∀ e ∈ rs, e.2.pair ≠ p) :
    ((rs.foldl (fun st pm => save_metrics pm.2 st) st).filter
      (fun r => r.pair = p)) = st.filter (fun r => r.pair = p) := by
  induction rs generalizing st with
  | nil => rfl
  | cons e t ih =>
    rw [List.foldl_cons, ih _ (fun x hx => h x (List.mem_cons_of_mem e hx))]
    exact save_preserves_other _ _ _ (h e (List.mem_cons_self e t))

lemma saves_lookup : ∀ (rs : List (String × PairMetrics)) (st : Store) (p : String)
    (m : PairMetrics), (rs.map Prod.fst).Nodup → (∀ e ∈ rs, e.2.pair = e.1) →
    rs.lookup p = some m →
    ((rs.foldl (fun st pm => save_metrics pm.2 st) st).filter
      (fun r => r.pair = p)) = [toRow m]
  | [], st, p, m, _, _, hlook => by simp at hlook
  | (k, mk) :: t, st, p, m, hnodup, hpair, hlook => by
    rw [List.map_cons] at hnodup
    rw [List.foldl_cons]
    by_cases hk : p = k
    · subst hk
      rw [List.lookup_cons_self] at hlook
      have hmk : mk = m := Option.some.inj hlook
      subst hmk
      have hmp : mk.pair = p := hpair (p, mk) (List.mem_cons_self _ _)
      have hothers : ∀ e ∈ t, e.2.pair ≠ p := by
        intro e he hep
        have h1 : e.1 = p := by
          rw [← hpair e (List.mem_cons_of_mem _ he)]
          exact hep
        have h2 : p ∈ t.map Prod.fst := h1 ▸ List.mem_map_of_mem Prod.fst he
        exact (List.nodup_cons.mp hnodup).1 h2
      rw [saves_preserve t _ p hothers, ← hmp]
      exact save_filter_self mk st
    · have hb : (p == k) = false := beq_eq_false_iff_ne.mpr hk
      rw [List.lookup_cons, hb] at hlook
      exact saves_lookup t (save_metrics mk st) p m (List.nodup_cons.mp hnodup).2
        (fun x hx => hpair x (List.mem_cons_of_mem _ hx)) hlook

lemma results_nodup_keys (env : Env) (pairs : List String) :
    ((analyze_all_pairs env pairs).map Prod.fst).Nodup := by
  rw [analyze_all_pairs_eq, foldl_dictInsert_keys]
  simp only [List.map_nil, List.nil_append]
  exact (firstKeys_nodup _ []).1

lemma results_pair_inv (env : Env) (pairs : List String) :
    ∀ e ∈ analyze_all_pairs env pairs, e.2.pair = e.1 := by
  rw [analyze_all_pairs_eq]
  exact foldl_dictInsert_prop (fun (p : String) (m : PairMetrics) => m.pair = p)
    _ (fun p => rfl) _ [] (by simp)

lemma update_writes_present (env : Env) (pairs : List String) (s : Store)
    (p : String) (hp : p ∈ pairs) (hdata : (env.fetch p).isEmpty = false) :
    (update_metrics env pairs s).filter (fun r => r.pair = p) =
      [toRow (pairMetricsOf env (ethDataOf env) p)] := by
  unfold update_metrics
  exact saves_lookup _ s p _ (results_nodup_keys env pairs)
    (results_pair_inv env pairs) (results_lookup_present env pairs p hp hdata)

lemma update_preserves_skipped (env : Env) (pairs : List String) (s : Store)
    (p : String) (hdata : (env.fetch p).isEmpty = true) :
    (update_metrics env pairs s).filter (fun r => r.pair = p) =
      s.filter (fun r => r.pair = p) := by
  unfold update_metrics
  apply saves_preserve
  intro e he hep
  have h1 : e.1 = p := by
    rw [← results_pair_inv env pairs e he]
    exact hep
  have h2 : e.1 ∈ (analyze_all_pairs env pairs).map Prod.fst :=
    List.mem_map_of_mem Prod.fst he
  rw [analyze_all_pairs_eq, foldl_dictInsert_keys] at h2
  simp only [List.map_nil, List.nil_append] at h2
  have h3 := firstKeys_subset _ _ h2
  have h4 := (List.mem_filter.mp h3).2
  rw [h1, hdata] at h4
  simp at h4

/-- A concrete refresh environment for C6: symbol `A/USDT:USDT` has one
bar of history, every other symbol — the ETH benchmark included — has
none. -/
noncomputable def envA : Env :=
  ⟨fun sym => if sym = "A/USDT:USDT" then [⟨0, 1, 1, 1, 1, 1⟩] else [],
    ⟨2024, 1, 1, 0, 0, 0, 0⟩⟩

/-- C6 counterexample: requesting `[A, B]` where only `A` has price data,
the refresh computes (and writes) exactly one instrument, yet the endpoint
reports `pairs_updated = 2` — the requested count, not the updated count —
so the claim that the report "counts as updated exactly the instruments
whose metrics were actually computed and written" is false. -/
theorem c6_report_counterexample :
    (manual_update envA ["A/USDT:USDT", "B/USDT:USDT"] []).1.2 = 2 ∧
    (analyze_all_pairs envA ["A/USDT:USDT", "B/USDT:USDT"]).map Prod.fst =
      ["A/USDT:USDT"] := by
  constructor
  · rfl
  · rfl

/-- C6 (amended): every requested instrument with empty/unavailable price
history is skipped — neither computed nor written, its stored rows left
untouched — while the batch continues and every requested instrument with
data is computed and written; but the report returned to the trigger is
`{"status": "Update completed", "pairs_updated": len(pairs)}`, counting the
REQUESTED instruments, skipped ones included (only the log line reports the
actually-updated count). -/
theorem c6_refresh_amended (env : Env) (pairs : List String) (s : Store) :
    (manual_update env pairs s).1 = ("Update completed", pairs.length) ∧
    ∀ p ∈ pairs,
      ((env.fetch p).isEmpty = true →
        (analyze_all_pairs env pairs).lookup p = none ∧
        (update_metrics env pairs s).filter (fun r => r.pair = p) =
          s.filter (fun r => r.pair = p)) ∧
      ((env.fetch p).isEmpty = false →
        (analyze_all_pairs env pairs).lookup p =
          some (pairMetricsOf env (ethDataOf env) p) ∧
        (update_metrics env pairs s).filter (fun r => r.pair = p) =
          [toRow (pairMetricsOf env (ethDataOf env) p)]) := by
  refine ⟨rfl, ?_⟩
  intro p hp
  constructor
  · intro hdata
    exact ⟨results_lookup_skipped env pairs p hdata,
      update_preserves_skipped env pairs s p hdata⟩
  · intro hdata
    exact ⟨results_lookup_present env pairs p hp hdata,
      update_writes_present env pairs s p hp hdata⟩

/-- Witness for C6 (amended) at the concrete environment of the
counterexample, instantiated at the skipped symbol `B`. -/
theorem c6_refresh_amended_witness :
    ("B/USDT:USDT" ∈ ["A/USDT:USDT", "B/USDT:USDT"]) ∧
    (envA.fetch "B/USDT:USDT").isEmpty = true ∧
    ((analyze_all_pairs envA ["A/USDT:USDT", "B/USDT:USDT"]).lookup
        "B/USDT:USDT" = none ∧
      (update_metrics envA ["A/USDT:USDT", "B/USDT:USDT"] []).filter
          (fun r => r.pair = "B/USDT:USDT") =
        ([] : Store).filter (fun r => r.pair = "B/USDT:USDT")) :=
  ⟨by simp, rfl,
    ((c6_refresh_amended envA ["A/USDT:USDT", "B/USDT:USDT"] []).2
      "B/USDT:USDT" (by simp)).1 rfl⟩

/-- C7: when the benchmark (ETH) price history is empty or unavailable, the
refresh does not abort: the benchmark reference becomes the default
`(volatility = 0.8, avgMovement = 0.05, dummy returns)`, and every
requested instrument whose own data is available is still computed against
those defaults and written to the store. -/
theorem c7_benchmark_fallback (env : Env) (pairs : List String) (s : Store)
    (hb : (env.fetch "ETH/USDT:USDT").isEmpty = true) :
    ethDataOf env = defaultEthData ∧
    ∀ p ∈ pairs, (env.fetch p).isEmpty = false →
      (analyze_all_pairs env pairs).lookup p =
        some (pairMetricsOf env defaultEthData p) ∧
      (update_metrics env pairs s).filter (fun r => r.pair = p) =
        [toRow (pairMetricsOf env defaultEthData p)] := by
  have he : ethDataOf env = defaultEthData := by
    simp [ethDataOf, hb]
  refine ⟨he, ?_⟩
  intro p hp hdata
  refine ⟨?_, ?_⟩
  · rw [← he]
    exact results_lookup_present env pairs p hp hdata
  · rw [← he]
    exact update_writes_present env pairs s p hp hdata

/-- A concrete refresh environment for C7: the ETH benchmark fetch returns
nothing, symbol `X/USDT:USDT` has one bar. -/
noncomputable def envB : Env :=
  ⟨fun sym => if sym = "X/USDT:USDT" then [⟨0, 1, 1, 1, 1, 1⟩] else [],
    ⟨2024, 1, 1, 0, 0, 0, 0⟩⟩

/-- Witness for C7 at the concrete environment whose benchmark fetch
fails. -/
theorem c7_benchmark_fallback_witness :
    (envB.fetch "ETH/USDT:USDT").isEmpty = true ∧
    ("X/USDT:USDT" ∈ ["X/USDT:USDT"]) ∧
    (envB.fetch "X/USDT:USDT").isEmpty = false ∧
    ((analyze_all_pairs envB ["X/USDT:USDT"]).lookup "X/USDT:USDT" =
        some (pairMetricsOf envB defaultEthData "X/USDT:USDT") ∧
      (update_metrics envB ["X/USDT:USDT"] []).filter
          (fun r => r.pair = "X/USDT:USDT") =
        [toRow (pairMetricsOf envB defaultEthData "X/USDT:USDT")]) :=
  ⟨rfl, by simp, rfl,
    (c7_benchmark_fallback envB ["X/USDT:USDT"] [] rfl).2
      "X/USDT:USDT" (by simp) rfl⟩

end TradingApi
